import Mathlib

/-!
Formal model of the wallet user service core: the refresh-token domain
model, the JWT token codec, the transaction coordinator, the identity
service orchestration (Register / Login), and the outbox notification
worker.  The Go sources are shallowly embedded: 64-bit epoch
timestamps become `Int`, fallible calls return `Except`, database and
worker state are explicit records, and calls into external
collaborators (SQL driver, bcrypt, JSON codec, task-queue client) are
oracle parameters supplied to the orchestration functions.
-/

namespace WalletProto

/-- Error taxonomy of `internal/app/errs/errors.go`.  The constructor
`other` stands for errors produced outside that package (SQL driver,
JSON codec, wrapped driver errors, ...), which Go code propagates as
opaque `error` values. -/
inductive Err where
  | invalidEmail
  | invalidUsername
  | invalidPassword
  | userNotFound
  | userExists
  | invalidToken
  | tokenExpired
  | tokenRevoked
  | tokenNotFound
  | tokenIsRequired
  | invalidCredentials
  | emailIsRequired
  | other (msg : String)
deriving DecidableEq, Repr

/-- A `uuid.UUID` is modelled as a `Nat`; `uuid.Nil` (the zero value)
is `0`, and freshly generated uuids are nonzero parameters. -/
abbrev UUID := Nat

/-- The Go `uuid.Nil` constant. -/
def uuidNil : UUID := 0

/-- Refresh-token record of
`internal/app/model/domain/refresh_token.go`.  `ExpiresAt`,
`CreatedAt` and `UpdatedAt` are epoch milliseconds (`int64`). -/
structure RefreshToken where
  ID : UUID
  UserID : UUID
  Token : String
  ExpiresAt : Int
  IsRevoked : Bool
  CreatedAt : Int
  UpdatedAt : Int
deriving DecidableEq, Repr

/-- `domain.NewRefreshToken` (internal/app/model/domain/refresh_token.go).
The Go function reads `time.Now().UnixMilli()` (passed here as
`nowMillis`) and generates a fresh id with `uuid.New()` (passed here
as `newID`). -/
def NewRefreshToken (userID : UUID) (tokenHash : String) (expiresAt : Int)
    (nowMillis : Int) (newID : UUID) : Except Err RefreshToken :=
  if userID = uuidNil then .error .invalidToken
  else if tokenHash = "" then .error .invalidToken
  else if expiresAt ≤ nowMillis then .error .tokenExpired
  else .ok {
    ID := newID
    UserID := userID
    Token := tokenHash
    ExpiresAt := expiresAt
    IsRevoked := false
    CreatedAt := nowMillis
    UpdatedAt := nowMillis }

/-- `(*RefreshToken).IsValid` (internal/app/model/domain/refresh_token.go):
checks, in order, `ID` well-formed, `UserID` well-formed, token
non-empty, not revoked, not expired against `time.Now().UnixMilli()`
(passed here as `nowMillis`). -/
def RefreshToken.IsValid (rt : RefreshToken) (nowMillis : Int) : Except Err Unit :=
  if rt.ID = uuidNil then .error .invalidToken
  else if rt.UserID = uuidNil then .error .invalidToken
  else if rt.Token = "" then .error .invalidToken
  else if rt.IsRevoked then .error .tokenRevoked
  else if rt.ExpiresAt ≤ nowMillis then .error .tokenExpired
  else .ok ()

/-! ## Token codec (pkg/utils/crypt/token, src/unnamed/part_005) -/

/-- The two sentinel errors of the token package:
`ErrInvalidToken` and `ErrExpiredToken`. -/
inductive TokenErr where
  | invalidToken
  | expiredToken
deriving DecidableEq, Repr

/-- JWT claims carried by access and refresh tokens
(pkg/utils/crypt/token/payload.go).  `ExpiredAt` and `IssuedAt` are
unix seconds. -/
structure Payload where
  ID : UUID
  UserID : String
  Username : String
  ExpiredAt : Int
  IssuedAt : Int
deriving DecidableEq, Repr

/-- `NewPayload` (pkg/utils/crypt/token/payload.go).  The Go function
reads `time.Now().Unix()` (here `nowSec`) and a random uuid (here
`tokenID`); its only error path is uuid generation, which is modelled
as always succeeding with the supplied `tokenID`. -/
def NewPayload (tokenID : UUID) (userID username : String)
    (duration nowSec : Int) : Payload :=
  { ID := tokenID
    UserID := userID
    Username := username
    IssuedAt := nowSec
    ExpiredAt := nowSec + duration }

/-- JWT signing methods, as far as the code distinguishes them: the
maker signs with HS256 and its `keyFunc` accepts any HMAC method. -/
inductive SigMethod where
  | hs256
  | nonHmac
deriving DecidableEq, Repr

/-- A signed JWT, modelled symbolically: the signature of an honestly
produced token is the pair (key it was MACed with, claims it covers);
verification compares that pair against the verifier's key and the
token's claims.  This is the standard perfect-MAC model of HS256. -/
structure SignedToken where
  claims : Payload
  method : SigMethod
  macKey : String
  macClaims : Payload
deriving DecidableEq, Repr

/-- `(*JWTTokenMaker).CreateAccessToken` (src/unnamed/part_005): build
the payload with `NewPayload` and sign it with HS256 under the maker's
secret key. -/
def CreateAccessToken (secretKey : String) (tokenID : UUID)
    (userID username : String) (duration nowSec : Int) : SignedToken :=
  let payload := NewPayload tokenID userID username duration nowSec
  { claims := payload
    method := .hs256
    macKey := secretKey
    macClaims := payload }

/-- `(*JWTTokenMaker).CreateRefreshToken` (src/unnamed/part_005): same
payload shape and signing path as access tokens. -/
def CreateRefreshToken (secretKey : String) (tokenID : UUID)
    (userID username : String) (duration nowSec : Int) : SignedToken :=
  CreateAccessToken secretKey tokenID userID username duration nowSec

/-- `(*JWTTokenMaker).VerifyAccessToken` (src/unnamed/part_005) on top
of golang-jwt v5 `ParseWithClaims`: the `keyFunc` rejects non-HMAC
methods, the parser verifies the signature, then the v5 validator
checks the registered claims — for this `Payload` only `exp` (it
returns no `nbf`, and `iat` is not validated by default; the legacy
`Valid() error` method is not part of the v5 claims interface, so the
empty-subject checks in it are never invoked by `ParseWithClaims`).
The wrapper maps `jwt.ErrTokenExpired` to `ErrExpiredToken` and every
other parse error to `ErrInvalidToken`. -/
def VerifyAccessToken (secretKey : String) (tok : SignedToken)
    (nowSec : Int) : Except TokenErr Payload :=
  if tok.method ≠ SigMethod.hs256 then .error .invalidToken
  else if ¬ (tok.macKey = secretKey ∧ tok.macClaims = tok.claims) then .error .invalidToken
  else if tok.claims.ExpiredAt ≤ nowSec then .error .expiredToken
  else .ok tok.claims

/-- `(*JWTTokenMaker).VerifyRefreshToken` simply delegates to
`VerifyAccessToken`. -/
def VerifyRefreshToken (secretKey : String) (tok : SignedToken)
    (nowSec : Int) : Except TokenErr Payload :=
  VerifyAccessToken secretKey tok nowSec

/-! ## Relational store state -/

/-- A user row (internal/app/model/domain user model): contact fields
that the claims do not inspect are kept as plain strings / options. -/
structure User where
  ID : UUID
  Email : Option String
  Username : String
  PasswordHash : String
deriving DecidableEq, Repr

/-- Status column of `notification_event_logs`
(internal/app/repository/notification_event_log.go). -/
inductive NotificationEventLogStatus where
  | pending
  | success
  | failed
deriving DecidableEq, Repr

/-- Row of the `notification_event_logs` outbox table
(internal/app/repository/notification_event_log.go); `Payload` is the
serialized JSON blob. -/
structure NotificationEventLog where
  ID : String
  EventName : String
  Payload : String
  Status : NotificationEventLogStatus
  CreatedAt : Int
  UpdatedAt : Int
deriving DecidableEq, Repr

/-- The relational store: the three tables of the schema that the
claims touch. -/
structure DB where
  users : List User
  refreshTokens : List RefreshToken
  notificationEventLogs : List NotificationEventLog
deriving DecidableEq, Repr

/-- `userRepo.GetByID`: `SELECT ... FROM users WHERE id = $1`;
no row yields `ErrUserNotFound`. -/
def UserRepository.GetByID (db : DB) (id : UUID) : Except Err User :=
  match db.users.find? (fun u => u.ID = id) with
  | some u => .ok u
  | none => .error .userNotFound

/-- `userRepo.GetByEmail`: `SELECT ... FROM users WHERE email = $1`;
no row yields `ErrUserNotFound`. -/
def UserRepository.GetByEmail (db : DB) (email : String) : Except Err User :=
  match db.users.find? (fun u => u.Email = some email) with
  | some u => .ok u
  | none => .error .userNotFound

/-! ## Transaction coordinator (pkg/utils/tx, src/unnamed/part_001)

A transaction is begun on the pooled connection; repository calls made
with the transaction handle in the call context write to the
transaction's local view, which becomes visible to others only on
commit.  The body `fn` is therefore modelled as a function from the
database state (the transaction's view, initially the committed state)
to `Except Err DB`: `.ok` is the view to commit, `.error` is the Go
`return err` path. -/

/-- `sql.IsolationLevel` values the manager passes to `BeginTxx`. -/
inductive IsolationLevel where
  | readCommitted
  | readUncommitted
  | repeatableRead
  | serializable
deriving DecidableEq, Repr

/-- `sql.TxOptions`. -/
structure TxOptions where
  Isolation : IsolationLevel
  ReadOnly : Bool
deriving DecidableEq, Repr

/-- `(*TransactionManager).WithTransactionOptions`
(src/unnamed/part_001 lines 51-72): run `fn`; on error roll back (the
view is discarded, the committed state is unchanged) and return `fn`'s
error verbatim (a rollback failure never masks it); on success commit
the view.  The options only configure the driver-level isolation of
concurrent transactions, which a single-transaction state model does
not observe. -/
def TransactionManager.WithTransactionOptions (fn : DB → Except Err DB)
    (_opts : TxOptions) (db : DB) : Except Err Unit × DB :=
  match fn db with
  | .error e => (.error e, db)
  | .ok db2 => (.ok (), db2)

/-- `(*TransactionManager).WithTransaction`: delegates to
`WithTransactionOptions` with read-committed, read-write options. -/
def TransactionManager.WithTransaction (fn : DB → Except Err DB)
    (db : DB) : Except Err Unit × DB :=
  TransactionManager.WithTransactionOptions fn
    { Isolation := .readCommitted, ReadOnly := false } db

/-- `(*TransactionManager).WithTransactionIsolation`: delegates with
the given isolation level, read-write. -/
def TransactionManager.WithTransactionIsolation (fn : DB → Except Err DB)
    (iso : IsolationLevel) (db : DB) : Except Err Unit × DB :=
  TransactionManager.WithTransactionOptions fn
    { Isolation := iso, ReadOnly := false } db

/-! ### Control-flow model for panics

To settle what happens when `fn` panics, the callback's execution is
abstracted to its outcome (returns nil, returns an error, or panics),
and the manager's behaviour to the pair (how the call ends for the
caller, what happened to the open transaction). -/

/-- Outcome of executing the Go callback `fn`. -/
inductive FnOutcome where
  | ok
  | err (e : Err)
  | panics (msg : String)
deriving DecidableEq, Repr

/-- Fate of the transaction opened by `BeginTxx`. -/
inductive TxFate where
  | committed
  | rolledBack
  | leftOpen
deriving DecidableEq, Repr

/-- Equality of `Except` results is decidable when it is decidable on
both components; used to evaluate the models on concrete inputs. -/
instance {ε α : Type} [DecidableEq ε] [DecidableEq α] :
    DecidableEq (Except ε α) := fun a b =>
  match a, b with
  | .error e1, .error e2 =>
      if h : e1 = e2 then .isTrue (by rw [h]) else .isFalse (by simp [h])
  | .ok v1, .ok v2 =>
      if h : v1 = v2 then .isTrue (by rw [h]) else .isFalse (by simp [h])
  | .error _, .ok _ => .isFalse (by simp)
  | .ok _, .error _ => .isFalse (by simp)

/-- How the `WithTransaction*` call itself ends for its caller. -/
inductive CallResult where
  | returns (r : Except Err Unit)
  | panicked (msg : String)
deriving DecidableEq, Repr

/-- Control-flow of `(*TransactionManager).WithTransactionOptions` in
`wallet-user-svc/pkg/utils/tx` (src/unnamed/part_001): the function
body installs NO deferred recover, so when `fn` panics the stack
unwinds past both the rollback and the commit calls — the panic
propagates and the transaction is neither rolled back nor committed
by this function. -/
def TransactionManager.WithTransactionOptionsFate (fn : FnOutcome)
    (_opts : TxOptions) : CallResult × TxFate :=
  match fn with
  | .ok => (.returns (.ok ()), .committed)
  | .err e => (.returns (.error e), .rolledBack)
  | .panics m => (.panicked m, .leftOpen)

/-- Control-flow of `WithTransaction` (src/unnamed/part_001):
delegates to `WithTransactionOptions`. -/
def TransactionManager.WithTransactionFate (fn : FnOutcome) : CallResult × TxFate :=
  TransactionManager.WithTransactionOptionsFate fn
    { Isolation := .readCommitted, ReadOnly := false }

/-- Control-flow of `WithTransactionIsolation` (src/unnamed/part_001):
delegates to `WithTransactionOptions`, as do the read-only,
serializable, repeatable-read and read-uncommitted variants. -/
def TransactionManager.WithTransactionIsolationFate (fn : FnOutcome)
    (iso : IsolationLevel) : CallResult × TxFate :=
  TransactionManager.WithTransactionOptionsFate fn
    { Isolation := iso, ReadOnly := false }

/-- Control-flow of the sibling `(*TransactionManager).WithTransaction`
in the `user-svc/pkg/utils/tx` tree (bundled in
src/pkg/migrate/migrate.go): that version installs a deferred recover
that rolls the transaction back and re-panics, so a panic in `fn`
propagates only after rollback. -/
def UserSvcTransactionManager.WithTransactionFate (fn : FnOutcome) : CallResult × TxFate :=
  match fn with
  | .ok => (.returns (.ok ()), .committed)
  | .err e => (.returns (.error e), .rolledBack)
  | .panics m => (.panicked m, .rolledBack)

/-! ## Identity service (UserService, src/internal/app/config/config.go)

The orchestration functions are embedded with their exact control
flow.  Calls into collaborators whose behaviour the claims quantify
over — request validation, user construction with bcrypt, the token
maker, the SQL `INSERT`s of the repositories, JSON marshalling — are
oracle fields: arbitrary functions standing for the corresponding Go
call, including its environmental failure modes. -/

/-- `dto.RegisterReq`. -/
structure RegisterReq where
  Email : String
  Username : String
  Password : String
  CountryCode : Option String
  Phone : Option String
deriving DecidableEq, Repr

/-- `dto.LoginReq`. -/
structure LoginReq where
  Email : String
  Password : String
deriving DecidableEq, Repr

/-- `dto.LoginResp`. -/
structure LoginResp where
  User : User
  AccessToken : String
  RefreshToken : String
deriving DecidableEq, Repr

/-- Collaborators of `UserService.Register`, together with the clock
and uuid values the call reads. -/
structure RegisterOracles where
  /-- `req.Validate()` -/
  validate : RegisterReq → Except Err Unit
  /-- `domain.NewUserWithPassword(...)` -/
  newUserWithPassword : RegisterReq → Except Err User
  /-- `s.tokenMaker.CreateTokenPair(id, username, duration)`; yields the
  (access token, refresh token) strings -/
  createTokenPair : User → Except Err (String × String)
  /-- `s.userRepo.Create(txCtx, user)` through the transaction handle:
  on success, the transaction view with the inserted row -/
  userRepoCreate : DB → User → Except Err DB
  /-- `s.refreshTokenRepo.Create(txCtx, rt)` through the transaction
  handle -/
  rtRepoCreate : DB → RefreshToken → Except Err DB
  /-- `time.Now().UnixMilli()` -/
  nowMillis : Int
  /-- `s.config.JWT.RefreshTokenDuration`, in milliseconds -/
  refreshTokenDurationMillis : Int
  /-- the uuid `domain.NewRefreshToken` generates -/
  newRefreshTokenID : UUID

/-- `UserService.Register` (src/internal/app/config/config.go):
validate, construct the user, issue the token pair (all outside the
transaction), then inside one `WithTransaction`: persist the user,
build the refresh-token record, persist it.  Any error is returned
and leaves the committed state as the transaction semantics dictate. -/
def UserService.Register (o : RegisterOracles) (req : RegisterReq)
    (db : DB) : Except Err (User × String × String) × DB :=
  match o.validate req with
  | .error e => (.error e, db)
  | .ok _ =>
  match o.newUserWithPassword req with
  | .error e => (.error e, db)
  | .ok user =>
  match o.createTokenPair user with
  | .error e => (.error e, db)
  | .ok (accessToken, refreshToken) =>
  match TransactionManager.WithTransaction (fun d =>
      match o.userRepoCreate d user with
      | .error e => .error e
      | .ok d1 =>
        match NewRefreshToken user.ID refreshToken
            (o.nowMillis + o.refreshTokenDurationMillis) o.nowMillis
            o.newRefreshTokenID with
        | .error e => .error e
        | .ok refreshTokenModel => o.rtRepoCreate d1 refreshTokenModel) db with
  | (.error e, db1) => (.error e, db1)
  | (.ok _, db1) => (.ok (user, accessToken, refreshToken), db1)

/-- Collaborators of `UserService.Login`, together with the clock and
uuid values the call reads. -/
structure LoginOracles where
  /-- `user.PasswordHash.VerifyPassword(req.Password)` (bcrypt) -/
  verifyPassword : User → String → Bool
  /-- `s.tokenMaker.CreateTokenPair(...)` -/
  createTokenPair : User → Except Err (String × String)
  /-- `s.refreshTokenRepo.Create(txCtx, rt)` through the transaction
  handle -/
  rtRepoCreate : DB → RefreshToken → Except Err DB
  /-- `json.Marshal(notificationParams)` -/
  marshalLoginPayload : User → Except Err String
  /-- `s.notificationEventLogRepo.Create(ctx, event)` on the ambient,
  non-transactional connection -/
  outboxCreate : DB → NotificationEventLog → Except Err DB
  /-- `time.Now().UnixMilli()` -/
  nowMillis : Int
  /-- `s.config.JWT.RefreshTokenDuration`, in milliseconds -/
  refreshTokenDurationMillis : Int
  /-- the uuid `domain.NewRefreshToken` generates -/
  newRefreshTokenID : UUID
  /-- the `uuid.New().String()` used as the outbox event id -/
  newEventID : String

/-- `UserService.authenticateUser` (src/internal/app/config/config.go):
look up the user by email, then verify the password; a mismatch is
`ErrInvalidCredentials`. -/
def UserService.authenticateUser (o : LoginOracles) (req : LoginReq)
    (db : DB) : Except Err User :=
  match UserRepository.GetByEmail db req.Email with
  | .error e => .error e
  | .ok user =>
    if o.verifyPassword user req.Password then .ok user
    else .error .invalidCredentials

/-- `UserService.storeRefreshToken` (src/internal/app/config/config.go):
one `WithTransaction` that builds the refresh-token record and
persists it through the transaction handle. -/
def UserService.storeRefreshToken (o : LoginOracles) (user : User)
    (refreshToken : String) (db : DB) : Except Err Unit × DB :=
  TransactionManager.WithTransaction (fun d =>
    match NewRefreshToken user.ID refreshToken
        (o.nowMillis + o.refreshTokenDurationMillis) o.nowMillis
        o.newRefreshTokenID with
    | .error e => .error e
    | .ok refreshTokenModel => o.rtRepoCreate d refreshTokenModel) db

/-- The outbox row `UserService.createLoginNotification` appends:
event name `login`, serialized payload, status `pending`. -/
def loginOutboxEvent (o : LoginOracles) (payload : String) : NotificationEventLog :=
  { ID := o.newEventID
    EventName := "login"
    Payload := payload
    Status := .pending
    CreatedAt := o.nowMillis
    UpdatedAt := o.nowMillis }

/-- `UserService.createLoginNotification`
(src/internal/app/config/config.go): marshal the notification
parameters, then append the `login` outbox event with status
`pending` on the ambient (non-transactional) connection; either
failure is returned to the caller. -/
def UserService.createLoginNotification (o : LoginOracles) (user : User)
    (db : DB) : Except Err Unit × DB :=
  match o.marshalLoginPayload user with
  | .error e => (.error e, db)
  | .ok payload =>
    match o.outboxCreate db (loginOutboxEvent o payload) with
    | .error e => (.error e, db)
    | .ok db2 => (.ok (), db2)

/-- `UserService.Login` (src/internal/app/config/config.go): require a
non-empty email, authenticate, issue the token pair, persist the
refresh token inside a transaction, then append the login outbox
event outside that transaction; the first failing step's error is
returned. -/
def UserService.Login (o : LoginOracles) (req : LoginReq)
    (db : DB) : Except Err LoginResp × DB :=
  if req.Email = "" then (.error .emailIsRequired, db)
  else
  match UserService.authenticateUser o req db with
  | .error e => (.error e, db)
  | .ok user =>
  match o.createTokenPair user with
  | .error e => (.error e, db)
  | .ok (accessToken, refreshToken) =>
  match UserService.storeRefreshToken o user refreshToken db with
  | (.error e, db1) => (.error e, db1)
  | (.ok _, db1) =>
  match UserService.createLoginNotification o user db1 with
  | (.error e, db2) => (.error e, db2)
  | (.ok _, db2) =>
    (.ok { User := user, AccessToken := accessToken, RefreshToken := refreshToken }, db2)

/-! ## Outbox notification worker (src/unnamed/part_006)

State touched by the worker: the `notification_event_logs` rows and
the tasks handed to the asynq client.  A poll cycle
(`processPendingLoginEvents`) fetches a batch and processes its rows
sequentially; `processEvent` unmarshals the payload, enqueues the
task, and marks the row `success`.  The outcome of the three fallible
steps is an oracle per event; Go context cancellation is a boolean
stream consulted once before each row, advancing one position per
row. -/

/-- State the worker reads and writes: the outbox rows plus the ids of
tasks successfully handed to the task-queue client, in order. -/
structure WorkerState where
  eventLogs : List NotificationEventLog
  enqueued : List String
deriving DecidableEq, Repr

/-- `NotificationEventLogRepository.UpdateStatusSuccess`:
`UPDATE notification_event_logs SET status = 'success' WHERE id = $2`. -/
def NotificationEventLogRepository.UpdateStatusSuccess
    (logs : List NotificationEventLog) (id : String) : List NotificationEventLog :=
  logs.map fun ev => if ev.ID = id then { ev with Status := .success } else ev

/-- `NotificationEventLogRepository.FindPendingEvents`:
`SELECT ... WHERE event_name = $1 AND status = 'pending'
ORDER BY created_at ASC LIMIT $3`. -/
def NotificationEventLogRepository.FindPendingEvents
    (logs : List NotificationEventLog) (eventName : String)
    (batchSize : Nat) : List NotificationEventLog :=
  ((logs.filter fun ev =>
      decide (ev.EventName = eventName ∧ ev.Status = .pending)).mergeSort
    fun a b => decide (a.CreatedAt ≤ b.CreatedAt)).take batchSize

/-- Which step of `processEvent` fails for a given event, if any:
`json.Unmarshal` of the payload, the asynq `Enqueue` inside
`SendLoginNotification`, or `UpdateStatusSuccess`. -/
inductive EventOutcome where
  | unmarshalErr (e : Err)
  | enqueueErr (e : Err)
  | updateErr (e : Err)
  | success
deriving DecidableEq, Repr

/-- `NotificationWorker.processEvent` (src/unnamed/part_006): unmarshal
the payload, hand the task to the queue client, then mark the row
`success`; the first failing step's error is returned and the
remaining steps are skipped.  A failed unmarshal or enqueue leaves the
state untouched; a failed status update leaves the row `pending`
although the task was already enqueued. -/
def NotificationWorker.processEvent (orc : NotificationEventLog → EventOutcome)
    (ev : NotificationEventLog) (st : WorkerState) : Except Err Unit × WorkerState :=
  match orc ev with
  | .unmarshalErr e => (.error e, st)
  | .enqueueErr e => (.error e, st)
  | .updateErr e => (.error e, { st with enqueued := st.enqueued ++ [ev.ID] })
  | .success =>
      (.ok (), { st with
        enqueued := st.enqueued ++ [ev.ID]
        eventLogs := NotificationEventLogRepository.UpdateStatusSuccess st.eventLogs ev.ID })

/-- The per-row loop of `NotificationWorker.processPendingLoginEvents`
(src/unnamed/part_006): before each row, poll `ctx.Done()`; if the
context is cancelled, return at once, leaving the remaining rows of
the batch unprocessed.  Otherwise process the row; an error from
`processEvent` is logged and the loop continues with the next row.
The function returns only the new state — like the Go method, it has
no error channel to its caller. -/
def NotificationWorker.processBatch (orc : NotificationEventLog → EventOutcome)
    (cancelled : Nat → Bool) :
    List NotificationEventLog → WorkerState → WorkerState
  | [], st => st
  | ev :: rest, st =>
    if cancelled 0 then st
    else
      NotificationWorker.processBatch orc (fun j => cancelled (j + 1)) rest
        (NotificationWorker.processEvent orc ev st).2

/-- A context that is never cancelled. -/
def noCancel : Nat → Bool := fun _ => false

/-- `NotificationWorker.processPendingLoginEvents` (src/unnamed/part_006):
fetch up to `batchSize` pending `login` rows, then run the per-row
loop.  A fetch error only logs and returns, which coincides with
processing the empty batch. -/
def NotificationWorker.processPendingLoginEvents
    (orc : NotificationEventLog → EventOutcome) (cancelled : Nat → Bool)
    (batchSize : Nat) (st : WorkerState) : WorkerState :=
  NotificationWorker.processBatch orc cancelled
    (NotificationEventLogRepository.FindPendingEvents st.eventLogs "login" batchSize) st

/-! ## Concrete sample data, used to instantiate the theorems below -/

/-- A sample registered user. -/
def user0 : User :=
  { ID := 3, Email := some "a@b.co", Username := "alice", PasswordHash := "pw" }

/-- An empty store. -/
def db0 : DB := { users := [], refreshTokens := [], notificationEventLogs := [] }

/-- A store holding only `user0`. -/
def dbWithUser0 : DB :=
  { users := [user0], refreshTokens := [], notificationEventLogs := [] }

/-- Register collaborators in which everything succeeds except the
refresh-token `INSERT`, which fails with a driver error. -/
def registerOracles0 : RegisterOracles :=
  { validate := fun _ => .ok ()
    newUserWithPassword := fun _ => .ok user0
    createTokenPair := fun _ => .ok ("acc", "ref")
    userRepoCreate := fun d u => .ok { d with users := d.users ++ [u] }
    rtRepoCreate := fun _ _ => .error (.other "refresh token insert failed")
    nowMillis := 0
    refreshTokenDurationMillis := 1000
    newRefreshTokenID := 9 }

/-- A sample registration request. -/
def registerReq0 : RegisterReq :=
  { Email := "a@b.co", Username := "alice", Password := "Pw123456"
    CountryCode := none, Phone := none }

/-- Login collaborators in which everything succeeds except the outbox
`INSERT`, which fails with a driver error. -/
def loginOracles0 : LoginOracles :=
  { verifyPassword := fun u p => decide (u.PasswordHash = p)
    createTokenPair := fun _ => .ok ("acc", "ref")
    rtRepoCreate := fun d rt => .ok { d with refreshTokens := d.refreshTokens ++ [rt] }
    marshalLoginPayload := fun _ => .ok "payload-json"
    outboxCreate := fun _ _ => .error (.other "outbox insert failed")
    nowMillis := 0
    refreshTokenDurationMillis := 1000
    newRefreshTokenID := 9
    newEventID := "evt-1" }

/-- The refresh-token row `loginOracles0` makes Login persist. -/
def rtm0 : RefreshToken :=
  { ID := 9, UserID := 3, Token := "ref", ExpiresAt := 1000, IsRevoked := false
    CreatedAt := 0, UpdatedAt := 0 }

/-- A pending login outbox row. -/
def evA : NotificationEventLog :=
  { ID := "a", EventName := "login", Payload := "p1", Status := .pending
    CreatedAt := 1, UpdatedAt := 1 }

/-- A second pending login outbox row. -/
def evB : NotificationEventLog :=
  { ID := "b", EventName := "login", Payload := "p2", Status := .pending
    CreatedAt := 2, UpdatedAt := 2 }

/-- A worker state holding the two sample rows. -/
def workerSt0 : WorkerState := { eventLogs := [evA, evB], enqueued := [] }

/-- A per-event outcome in which `evA`'s task-queue enqueue fails and
every other event succeeds. -/
def orcFailA : NotificationEventLog → EventOutcome := fun ev =>
  if ev.ID = "a" then .enqueueErr (.other "queue down") else .success

/-- A context cancelled from step 1 onward. -/
def cancelAfterOne : Nat → Bool := fun j => decide (1 ≤ j)

/-! ## Theorems -/

/-- C4: the pure validity check tests identity, token, revocation and
expiry in that fixed order: a well-formed, non-empty record that is
revoked fails with `TokenRevoked` no matter where its expiry lies, and
a well-formed, non-empty, non-revoked record whose expiry is in the
past fails with `TokenExpired`. -/
theorem C4_refreshToken_isValid_check_order (rt : RefreshToken) (nowMillis : Int)
    (hid : rt.ID ≠ uuidNil) (huid : rt.UserID ≠ uuidNil) (htok : rt.Token ≠ "") :
    (rt.IsRevoked = true → rt.IsValid nowMillis = .error .tokenRevoked) ∧
    (rt.IsRevoked = false → rt.ExpiresAt < nowMillis →
      rt.IsValid nowMillis = .error .tokenExpired) := by
  constructor
  · intro hrev
    simp [RefreshToken.IsValid, hid, huid, htok, hrev]
  · intro hrev hexp
    simp [RefreshToken.IsValid, hid, huid, htok, hrev, hexp.le]

/-- Witness for C4: a revoked record with a far-future expiry fails with
`TokenRevoked`; the same well-formed record, unrevoked but expired,
fails with `TokenExpired`. -/
theorem C4_refreshToken_isValid_check_order_witness :
    RefreshToken.IsValid
      { ID := 1, UserID := 2, Token := "tok", ExpiresAt := 999999, IsRevoked := true,
        CreatedAt := 0, UpdatedAt := 0 } 5 = .error .tokenRevoked ∧
    RefreshToken.IsValid
      { ID := 1, UserID := 2, Token := "tok", ExpiresAt := 3, IsRevoked := false,
        CreatedAt := 0, UpdatedAt := 0 } 5 = .error .tokenExpired :=
  ⟨(C4_refreshToken_isValid_check_order _ 5 (by decide) (by decide) (by decide)).1 rfl,
   (C4_refreshToken_isValid_check_order _ 5 (by decide) (by decide) (by decide)).2 rfl
     (by decide)⟩

/-- C9 counterexample: with a non-nil user id and a non-empty token, an
expiry equal to the current millisecond is not "already in the past",
so the claim requires success — but `NewRefreshToken` fails with
`TokenExpired` (the code rejects `expiresAt <= now`, not only
`expiresAt < now`). -/
theorem C9_counterexample :
    (1 : UUID) ≠ uuidNil ∧ ("t" : String) ≠ "" ∧ ¬ ((1000 : Int) < 1000) ∧
    NewRefreshToken 1 "t" 1000 1000 7 = .error .tokenExpired := by
  refine ⟨by decide, by decide, by decide, ?_⟩
  simp [NewRefreshToken, uuidNil]

/-- C9 (amended): creation fails with `InvalidToken` when the user id
is nil or the token value is empty; otherwise it fails with
`TokenExpired` when the supplied expiry (epoch milliseconds) is at or
before the current millisecond; for all other inputs it succeeds. -/
theorem C9_newRefreshToken_error_cases (userID : UUID) (tok : String)
    (expiresAt nowMillis : Int) (newID : UUID) :
    ((userID = uuidNil ∨ tok = "") →
      NewRefreshToken userID tok expiresAt nowMillis newID = .error .invalidToken) ∧
    (userID ≠ uuidNil → tok ≠ "" → expiresAt ≤ nowMillis →
      NewRefreshToken userID tok expiresAt nowMillis newID = .error .tokenExpired) ∧
    (userID ≠ uuidNil → tok ≠ "" → nowMillis < expiresAt →
      NewRefreshToken userID tok expiresAt nowMillis newID = .ok {
        ID := newID, UserID := userID, Token := tok, ExpiresAt := expiresAt,
        IsRevoked := false, CreatedAt := nowMillis, UpdatedAt := nowMillis }) := by
  refine ⟨fun h => ?_, fun h1 h2 h3 => ?_, fun h1 h2 h3 => ?_⟩
  · rcases h with h | h
    · simp [NewRefreshToken, h]
    · by_cases huid : userID = uuidNil <;> simp [NewRefreshToken, h, huid]
  · simp [NewRefreshToken, h1, h2, h3]
  · simp [NewRefreshToken, h1, h2, not_le.mpr h3]

/-- Witness for C9's amended statement at concrete inputs: a nil user
id fails with `InvalidToken`, a past expiry fails with `TokenExpired`,
and a future expiry succeeds with the constructed record. -/
theorem C9_newRefreshToken_error_cases_witness :
    NewRefreshToken 0 "t" 5 0 7 = .error .invalidToken ∧
    NewRefreshToken 1 "t" (-5) 0 7 = .error .tokenExpired ∧
    NewRefreshToken 1 "t" 5 0 7 = .ok {
      ID := 7, UserID := 1, Token := "t", ExpiresAt := 5,
      IsRevoked := false, CreatedAt := 0, UpdatedAt := 0 } :=
  ⟨(C9_newRefreshToken_error_cases 0 "t" 5 0 7).1 (Or.inl rfl),
   (C9_newRefreshToken_error_cases 1 "t" (-5) 0 7).2.1 (by decide) (by decide) (by decide),
   (C9_newRefreshToken_error_cases 1 "t" 5 0 7).2.2 (by decide) (by decide) (by decide)⟩

/-- C7: for a valid subject pair and a positive ttl, verifying a token
produced by `CreateAccessToken` under the same secret succeeds at
every time before the ttl has elapsed, and the returned payload's
`UserID` and `Username` equal the issuing inputs. -/
theorem C7_verify_of_issue (secretKey : String) (tokenID : UUID)
    (userID username : String) (duration now0 t : Int)
    (huid : userID ≠ "") (huname : username ≠ "") (hdur : 0 < duration)
    (ht : t < now0 + duration) :
    VerifyAccessToken secretKey
        (CreateAccessToken secretKey tokenID userID username duration now0) t
      = .ok (NewPayload tokenID userID username duration now0) ∧
    (NewPayload tokenID userID username duration now0).UserID = userID ∧
    (NewPayload tokenID userID username duration now0).Username = username := by
  refine ⟨?_, rfl, rfl⟩
  simp [VerifyAccessToken, CreateAccessToken, NewPayload, not_le.mpr ht]

/-- Witness for C7: subject ("u7", "alice"), ttl 60 s issued at time 0,
verified at time 30. -/
theorem C7_verify_of_issue_witness :
    VerifyAccessToken "k" (CreateAccessToken "k" 1 "u7" "alice" 60 0) 30
      = .ok (NewPayload 1 "u7" "alice" 60 0) ∧
    (NewPayload 1 "u7" "alice" 60 0).UserID = "u7" ∧
    (NewPayload 1 "u7" "alice" 60 0).Username = "alice" :=
  C7_verify_of_issue "k" 1 "u7" "alice" 60 0 30 (by decide) (by decide) (by decide)
    (by decide)

/-- C8: a well-signed token whose expiry is in the past at verification
time fails with `ErrExpiredToken` and with no other error kind — the
claims validation that runs after a successful signature check only
inspects `exp` (the payload's legacy `Valid` method with its
empty-claim checks is not part of the golang-jwt v5 claims interface),
so empty subject fields cannot change the outcome. -/
theorem C8_expired_token_fails_expired (secretKey : String)
    (tok : SignedToken) (t : Int)
    (hmethod : tok.method = SigMethod.hs256)
    (hkey : tok.macKey = secretKey) (hclaims : tok.macClaims = tok.claims)
    (hexp : tok.claims.ExpiredAt < t) :
    VerifyAccessToken secretKey tok t = .error .expiredToken := by
  simp [VerifyAccessToken, hmethod, hkey, hclaims, hexp.le]

/-- Witness for C8: a well-signed, expired token whose subject claims
are both empty (invalid fields) still fails with `ErrExpiredToken`. -/
theorem C8_expired_token_fails_expired_witness :
    VerifyAccessToken "k"
      { claims := { ID := 1, UserID := "", Username := "", ExpiredAt := 10, IssuedAt := 0 },
        method := .hs256, macKey := "k",
        macClaims := { ID := 1, UserID := "", Username := "", ExpiredAt := 10, IssuedAt := 0 } }
      99 = .error .expiredToken :=
  C8_expired_token_fails_expired "k" _ 99 rfl rfl rfl (by decide)

/-- C2: evaluation at the failing input.  In the transaction manager of
`wallet-user-svc/pkg/utils/tx` (src/unnamed/part_001) — the one used
by the UserService — a callback that panics propagates its panic
while the transaction is left open: the body installs no deferred
recover, so neither rollback nor commit runs, contradicting the
claimed rollback-before-re-raise.  The sibling manager in the
`user-svc` tree does roll back and re-raise, which is the claimed
(and clearly intended) behaviour. -/
theorem C2_panic_leaves_transaction_open :
    TransactionManager.WithTransactionFate (FnOutcome.panics "boom")
        = (CallResult.panicked "boom", TxFate.leftOpen) ∧
    (∀ iso, TransactionManager.WithTransactionIsolationFate (FnOutcome.panics "boom") iso
        = (CallResult.panicked "boom", TxFate.leftOpen)) ∧
    TxFate.leftOpen ≠ TxFate.rolledBack ∧
    UserSvcTransactionManager.WithTransactionFate (FnOutcome.panics "boom")
        = (CallResult.panicked "boom", TxFate.rolledBack) := by
  refine ⟨rfl, fun iso => rfl, by decide, rfl⟩

/-- C1: when Register's transaction body has persisted the user row
but the refresh-token persistence step fails, Register returns that
error verbatim and the committed state is the initial one — the
transaction rolled back all-or-nothing — so querying the attempted
(fresh) user id afterwards yields `ErrUserNotFound`. -/
theorem C1_register_rolls_back_user_row (o : RegisterOracles) (req : RegisterReq)
    (db db1 : DB) (user : User) (accessToken refreshToken : String)
    (rtm : RefreshToken) (e : Err)
    (hval : o.validate req = .ok ())
    (hnew : o.newUserWithPassword req = .ok user)
    (htok : o.createTokenPair user = .ok (accessToken, refreshToken))
    (huc : o.userRepoCreate db user = .ok db1)
    (hrtm : NewRefreshToken user.ID refreshToken
        (o.nowMillis + o.refreshTokenDurationMillis) o.nowMillis
        o.newRefreshTokenID = .ok rtm)
    (hrc : o.rtRepoCreate db1 rtm = .error e)
    (hfresh : ∀ u ∈ db.users, u.ID ≠ user.ID) :
    UserService.Register o req db = (.error e, db) ∧
    UserRepository.GetByID (UserService.Register o req db).2 user.ID
      = .error .userNotFound := by
  have hreg : UserService.Register o req db = (.error e, db) := by
    simp [UserService.Register, TransactionManager.WithTransaction,
      TransactionManager.WithTransactionOptions, hval, hnew, htok, huc, hrtm, hrc]
  refine ⟨hreg, ?_⟩
  rw [hreg]
  have hnone : db.users.find? (fun u => u.ID = user.ID) = none :=
    List.find?_eq_none.mpr (fun u hu => by simp [hfresh u hu])
  simp [UserRepository.GetByID, hnone]

/-- Witness for C1: with an empty store and collaborators whose
refresh-token insert fails, Register returns that error and the user
id is absent afterwards. -/
theorem C1_register_rolls_back_user_row_witness :
    UserService.Register registerOracles0 registerReq0 db0
      = (.error (.other "refresh token insert failed"), db0) ∧
    UserRepository.GetByID (UserService.Register registerOracles0 registerReq0 db0).2
        user0.ID
      = .error .userNotFound :=
  C1_register_rolls_back_user_row registerOracles0 registerReq0 db0 dbWithUser0
    user0 "acc" "ref" rtm0 (.other "refresh token insert failed")
    rfl rfl rfl (by simp [registerOracles0, db0, dbWithUser0]) (by decide) rfl
    (by decide)

/-- C5: when authentication, token issuance and refresh-token
persistence all succeed but appending the login outbox event fails,
Login returns that error — the whole login fails. -/
theorem C5_login_fails_when_outbox_append_fails (o : LoginOracles) (req : LoginReq)
    (db db1 : DB) (user : User) (accessToken refreshToken : String)
    (rtm : RefreshToken) (payload : String) (e : Err)
    (hemail : req.Email ≠ "")
    (hauth : UserService.authenticateUser o req db = .ok user)
    (htok : o.createTokenPair user = .ok (accessToken, refreshToken))
    (hrtm : NewRefreshToken user.ID refreshToken
        (o.nowMillis + o.refreshTokenDurationMillis) o.nowMillis
        o.newRefreshTokenID = .ok rtm)
    (hstore : o.rtRepoCreate db rtm = .ok db1)
    (hmar : o.marshalLoginPayload user = .ok payload)
    (hout : o.outboxCreate db1 (loginOutboxEvent o payload) = .error e) :
    UserService.Login o req db = (.error e, db1) := by
  simp [UserService.Login, UserService.storeRefreshToken,
    UserService.createLoginNotification, TransactionManager.WithTransaction,
    TransactionManager.WithTransactionOptions, hemail, hauth, htok, hrtm, hstore,
    hmar, hout]

/-- Witness for C5: a concrete login in which only the outbox insert
fails; Login returns that error. -/
theorem C5_login_fails_when_outbox_append_fails_witness :
    UserService.Login loginOracles0 { Email := "a@b.co", Password := "pw" } dbWithUser0
      = (.error (.other "outbox insert failed"),
         { users := [user0], refreshTokens := [rtm0], notificationEventLogs := [] }) :=
  C5_login_fails_when_outbox_append_fails loginOracles0
    { Email := "a@b.co", Password := "pw" } dbWithUser0
    { users := [user0], refreshTokens := [rtm0], notificationEventLogs := [] }
    user0 "acc" "ref" rtm0 "payload-json" (.other "outbox insert failed")
    (by decide) (by decide) rfl (by decide)
    (by simp [loginOracles0, dbWithUser0]) rfl rfl

/-- C10: Login is not atomic across its two persistence steps — when
the refresh-token transaction has committed and the subsequent outbox
append (which runs outside that transaction, on the non-transactional
connection) fails, Login returns the error while the committed
refresh-token row remains in the final store state. -/
theorem C10_login_commits_refresh_token_despite_outbox_failure
    (o : LoginOracles) (req : LoginReq)
    (db db1 : DB) (user : User) (accessToken refreshToken : String)
    (rtm : RefreshToken) (payload : String) (e : Err)
    (hemail : req.Email ≠ "")
    (hauth : UserService.authenticateUser o req db = .ok user)
    (htok : o.createTokenPair user = .ok (accessToken, refreshToken))
    (hrtm : NewRefreshToken user.ID refreshToken
        (o.nowMillis + o.refreshTokenDurationMillis) o.nowMillis
        o.newRefreshTokenID = .ok rtm)
    (hstore : o.rtRepoCreate db rtm = .ok db1)
    (hmem : rtm ∈ db1.refreshTokens)
    (hmar : o.marshalLoginPayload user = .ok payload)
    (hout : o.outboxCreate db1 (loginOutboxEvent o payload) = .error e) :
    (UserService.Login o req db).1 = .error e ∧
    (UserService.Login o req db).2 = db1 ∧
    rtm ∈ (UserService.Login o req db).2.refreshTokens := by
  have h : UserService.Login o req db = (.error e, db1) := by
    simp [UserService.Login, UserService.storeRefreshToken,
      UserService.createLoginNotification, TransactionManager.WithTransaction,
      TransactionManager.WithTransactionOptions, hemail, hauth, htok, hrtm, hstore,
      hmar, hout]
  exact ⟨by rw [h], by rw [h], by rw [h]; exact hmem⟩

/-- Witness for C10: the concrete failing login of the C5 witness
leaves the committed refresh-token row `rtm0` in the store. -/
theorem C10_login_commits_refresh_token_despite_outbox_failure_witness :
    (UserService.Login loginOracles0 { Email := "a@b.co", Password := "pw" } dbWithUser0).1
      = .error (.other "outbox insert failed") ∧
    (UserService.Login loginOracles0 { Email := "a@b.co", Password := "pw" } dbWithUser0).2
      = { users := [user0], refreshTokens := [rtm0], notificationEventLogs := [] } ∧
    rtm0 ∈ (UserService.Login loginOracles0 { Email := "a@b.co", Password := "pw" }
        dbWithUser0).2.refreshTokens :=
  C10_login_commits_refresh_token_despite_outbox_failure loginOracles0
    { Email := "a@b.co", Password := "pw" } dbWithUser0
    { users := [user0], refreshTokens := [rtm0], notificationEventLogs := [] }
    user0 "acc" "ref" rtm0 "payload-json" (.other "outbox insert failed")
    (by decide) (by decide) rfl (by decide)
    (by simp [loginOracles0, dbWithUser0]) (by decide) rfl rfl

/-! ### Worker lemmas -/

/-- A row whose id differs from the updated one is untouched by
`UpdateStatusSuccess`. -/
theorem mem_updateStatusSuccess_of_ne (logs : List NotificationEventLog)
    (tid : String) (r : NotificationEventLog) (hr : r ∈ logs) (hne : r.ID ≠ tid) :
    r ∈ NotificationEventLogRepository.UpdateStatusSuccess logs tid :=
  List.mem_map.mpr ⟨r, hr, by simp [hne]⟩

/-- A row of `UpdateStatusSuccess`'s output whose status is not
`success` is an unchanged row of the input. -/
theorem of_mem_updateStatusSuccess_not_success (logs : List NotificationEventLog)
    (tid : String) (r : NotificationEventLog)
    (hr : r ∈ NotificationEventLogRepository.UpdateStatusSuccess logs tid)
    (hst : r.Status ≠ NotificationEventLogStatus.success) : r ∈ logs := by
  rcases List.mem_map.mp hr with ⟨a, ha, hEq⟩
  by_cases h : a.ID = tid
  · exfalso
    apply hst
    rw [← hEq]
    simp [h]
  · rw [if_neg h] at hEq
    exact hEq ▸ ha

/-- `processEvent` does not touch rows whose id differs from the
processed event's. -/
theorem processEvent_eventLogs_frame (orc : NotificationEventLog → EventOutcome)
    (ev r : NotificationEventLog) (st : WorkerState)
    (hr : r ∈ st.eventLogs) (hne : r.ID ≠ ev.ID) :
    r ∈ (NotificationWorker.processEvent orc ev st).2.eventLogs := by
  cases horc : orc ev <;> simp [NotificationWorker.processEvent, horc]
  case success => exact mem_updateStatusSuccess_of_ne _ _ _ hr hne
  all_goals exact hr

/-- `processEvent` never produces a `failed` row: any non-`success`
row of the output state was already in the input state. -/
theorem processEvent_no_new_failed (orc : NotificationEventLog → EventOutcome)
    (ev r : NotificationEventLog) (st : WorkerState)
    (hr : r ∈ (NotificationWorker.processEvent orc ev st).2.eventLogs)
    (hst : r.Status = NotificationEventLogStatus.failed) : r ∈ st.eventLogs := by
  cases horc : orc ev <;> simp [NotificationWorker.processEvent, horc] at hr
  case success =>
    refine of_mem_updateStatusSuccess_not_success _ _ _ hr ?_
    rw [hst]
    decide
  all_goals exact hr

/-- Every id `processEvent` adds to the enqueue log is the processed
event's. -/
theorem processEvent_enqueued_sub (orc : NotificationEventLog → EventOutcome)
    (ev : NotificationEventLog) (st : WorkerState) (tid : String)
    (h : tid ∈ (NotificationWorker.processEvent orc ev st).2.enqueued) :
    tid ∈ st.enqueued ∨ ev.ID = tid := by
  cases horc : orc ev <;>
    simp [NotificationWorker.processEvent, horc, List.mem_append] at h
  case unmarshalErr e => exact Or.inl h
  case enqueueErr e => exact Or.inl h
  case updateErr e => exact h.imp id Eq.symm
  case success => exact h.imp id Eq.symm

/-- Unfolding the per-row loop one step under an uncancelled context. -/
theorem processBatch_noCancel_cons (orc : NotificationEventLog → EventOutcome)
    (ev : NotificationEventLog) (rest : List NotificationEventLog) (st : WorkerState) :
    NotificationWorker.processBatch orc noCancel (ev :: rest) st
      = NotificationWorker.processBatch orc noCancel rest
          (NotificationWorker.processEvent orc ev st).2 := rfl

/-- Under an uncancelled context the loop processes an appended batch
in two runs. -/
theorem processBatch_noCancel_append (orc : NotificationEventLog → EventOutcome)
    (l1 l2 : List NotificationEventLog) (st : WorkerState) :
    NotificationWorker.processBatch orc noCancel (l1 ++ l2) st
      = NotificationWorker.processBatch orc noCancel l2
          (NotificationWorker.processBatch orc noCancel l1 st) := by
  induction l1 generalizing st with
  | nil => rfl
  | cons a t ih =>
      rw [List.cons_append, processBatch_noCancel_cons, processBatch_noCancel_cons]
      exact ih _

/-- The loop never produces a `failed` row. -/
theorem processBatch_no_new_failed (orc : NotificationEventLog → EventOutcome)
    (l : List NotificationEventLog) (st : WorkerState) (r : NotificationEventLog)
    (hr : r ∈ (NotificationWorker.processBatch orc noCancel l st).eventLogs)
    (hst : r.Status = NotificationEventLogStatus.failed) : r ∈ st.eventLogs := by
  induction l generalizing st with
  | nil => exact hr
  | cons a t ih =>
      rw [processBatch_noCancel_cons] at hr
      exact processEvent_no_new_failed _ _ _ _ (ih _ hr) hst

/-- Rows whose id differs from every batch event's id survive the loop
untouched. -/
theorem processBatch_eventLogs_frame (orc : NotificationEventLog → EventOutcome)
    (l : List NotificationEventLog) (st : WorkerState) (r : NotificationEventLog)
    (hr : r ∈ st.eventLogs) (h : ∀ a ∈ l, r.ID ≠ a.ID) :
    r ∈ (NotificationWorker.processBatch orc noCancel l st).eventLogs := by
  induction l generalizing st with
  | nil => exact hr
  | cons a t ih =>
      rw [processBatch_noCancel_cons]
      exact ih _
        (processEvent_eventLogs_frame orc a r st hr (h a (List.mem_cons_self a t)))
        (fun b hb => h b (List.mem_cons_of_mem a hb))

/-- Every id the loop adds to the enqueue log belongs to a batch
event. -/
theorem processBatch_enqueued_sub (orc : NotificationEventLog → EventOutcome)
    (l : List NotificationEventLog) (st : WorkerState) (tid : String)
    (h : tid ∈ (NotificationWorker.processBatch orc noCancel l st).enqueued) :
    tid ∈ st.enqueued ∨ ∃ a ∈ l, a.ID = tid := by
  induction l generalizing st with
  | nil => exact Or.inl h
  | cons a t ih =>
      rw [processBatch_noCancel_cons] at h
      rcases ih _ h with h1 | ⟨b, hb, hbid⟩
      · rcases processEvent_enqueued_sub orc a st tid h1 with h2 | h2
        · exact Or.inl h2
        · exact Or.inr ⟨a, List.mem_cons_self a t, h2⟩
      · exact Or.inr ⟨b, List.mem_cons_of_mem a hb, hbid⟩

/-- A run under a context first observed cancelled at step `k` equals
an uncancelled run over the first `k` rows only. -/
theorem processBatch_cancelled_eq_take (orc : NotificationEventLog → EventOutcome)
    (cancelled : Nat → Bool) (l : List NotificationEventLog) (st : WorkerState)
    (k : Nat) (hbefore : ∀ j < k, cancelled j = false) (hk : cancelled k = true) :
    NotificationWorker.processBatch orc cancelled l st
      = NotificationWorker.processBatch orc noCancel (l.take k) st := by
  induction l generalizing st cancelled k with
  | nil => simp [NotificationWorker.processBatch]
  | cons a t ih =>
      cases k with
      | zero =>
          simp [NotificationWorker.processBatch, hk]
      | succ k =>
          have h0 : cancelled 0 = false := hbefore 0 (Nat.succ_pos k)
          rw [List.take_succ_cons, processBatch_noCancel_cons]
          rw [show NotificationWorker.processBatch orc cancelled (a :: t) st
              = NotificationWorker.processBatch orc (fun j => cancelled (j + 1)) t
                  (NotificationWorker.processEvent orc a st).2 from by
            simp [NotificationWorker.processBatch, h0]]
          exact ih _ _ _ (fun j hj => hbefore (j + 1) (Nat.succ_lt_succ hj)) hk

/-- C3: when processing an event of a batch fails at any step (its
payload deserialization, its task-queue enqueue, or its status
update), (1) `processEvent` returns an error that the loop — whose
result carries no error channel to the caller — only logs, (2) the
failing event's step leaves every row's status untouched, (3) the loop
continues with the remaining events of the batch, (4) the failing
event's pending row is still present, still `pending`, after the whole
batch (given the surrounding events carry other ids), and (5) the
worker never transitions any row to `failed`. -/
theorem C3_worker_failure_leaves_pending_and_continues
    (orc : NotificationEventLog → EventOutcome)
    (pre post : List NotificationEventLog) (ev : NotificationEventLog)
    (st : WorkerState)
    (hfail : orc ev ≠ EventOutcome.success)
    (hdistinct : ∀ a ∈ pre ++ post, a.ID ≠ ev.ID) :
    (∃ e, (NotificationWorker.processEvent orc ev
        (NotificationWorker.processBatch orc noCancel pre st)).1 = .error e) ∧
    (NotificationWorker.processEvent orc ev
        (NotificationWorker.processBatch orc noCancel pre st)).2.eventLogs
      = (NotificationWorker.processBatch orc noCancel pre st).eventLogs ∧
    NotificationWorker.processBatch orc noCancel (pre ++ ev :: post) st
      = NotificationWorker.processBatch orc noCancel post
          (NotificationWorker.processEvent orc ev
            (NotificationWorker.processBatch orc noCancel pre st)).2 ∧
    (∀ r ∈ st.eventLogs, r.ID = ev.ID →
      r.Status = NotificationEventLogStatus.pending →
      r ∈ (NotificationWorker.processBatch orc noCancel (pre ++ ev :: post) st).eventLogs) ∧
    (∀ r ∈ (NotificationWorker.processBatch orc noCancel (pre ++ ev :: post) st).eventLogs,
      r.Status = NotificationEventLogStatus.failed → r ∈ st.eventLogs) := by
  have hpre : ∀ a ∈ pre, a.ID ≠ ev.ID :=
    fun a ha => hdistinct a (List.mem_append_left _ ha)
  have hpost : ∀ a ∈ post, a.ID ≠ ev.ID :=
    fun a ha => hdistinct a (List.mem_append_right _ ha)
  have hsplit : NotificationWorker.processBatch orc noCancel (pre ++ ev :: post) st
      = NotificationWorker.processBatch orc noCancel post
          (NotificationWorker.processEvent orc ev
            (NotificationWorker.processBatch orc noCancel pre st)).2 := by
    rw [processBatch_noCancel_append, processBatch_noCancel_cons]
  have hstep : ∀ stmid : WorkerState,
      (∃ e, (NotificationWorker.processEvent orc ev stmid).1 = .error e) ∧
      (NotificationWorker.processEvent orc ev stmid).2.eventLogs = stmid.eventLogs := by
    intro stmid
    cases horc : orc ev <;> simp [NotificationWorker.processEvent, horc]
    exact absurd horc hfail
  refine ⟨(hstep _).1, (hstep _).2, hsplit, ?_, ?_⟩
  · intro r hr hrid _hpending
    rw [hsplit]
    refine processBatch_eventLogs_frame orc post _ r ?_
      (fun a ha => hrid ▸ (hpost a ha).symm)
    rw [(hstep _).2]
    exact processBatch_eventLogs_frame orc pre st r hr
      (fun a ha => hrid ▸ (hpre a ha).symm)
  · intro r hr hst
    exact processBatch_no_new_failed orc _ st r hr hst

/-- Witness for C3: a two-event batch in which the first event's
enqueue fails; the loop reports its error, leaves the row pending, and
still processes the second event. -/
theorem C3_worker_failure_leaves_pending_and_continues_witness :
    (∃ e, (NotificationWorker.processEvent orcFailA evA
        (NotificationWorker.processBatch orcFailA noCancel [] workerSt0)).1 = .error e) ∧
    (NotificationWorker.processEvent orcFailA evA
        (NotificationWorker.processBatch orcFailA noCancel [] workerSt0)).2.eventLogs
      = (NotificationWorker.processBatch orcFailA noCancel [] workerSt0).eventLogs ∧
    NotificationWorker.processBatch orcFailA noCancel ([] ++ evA :: [evB]) workerSt0
      = NotificationWorker.processBatch orcFailA noCancel [evB]
          (NotificationWorker.processEvent orcFailA evA
            (NotificationWorker.processBatch orcFailA noCancel [] workerSt0)).2 ∧
    (∀ r ∈ workerSt0.eventLogs, r.ID = evA.ID →
      r.Status = NotificationEventLogStatus.pending →
      r ∈ (NotificationWorker.processBatch orcFailA noCancel
            ([] ++ evA :: [evB]) workerSt0).eventLogs) ∧
    (∀ r ∈ (NotificationWorker.processBatch orcFailA noCancel
        ([] ++ evA :: [evB]) workerSt0).eventLogs,
      r.Status = NotificationEventLogStatus.failed → r ∈ workerSt0.eventLogs) :=
  C3_worker_failure_leaves_pending_and_continues orcFailA [] [evB] evA workerSt0
    (by decide) (by decide)

/-- C6: cancellation is checked before each row; once the governing
context is first observed cancelled at position `k`, the run equals an
uncancelled run over the first `k` rows only — so no later row is
handed to the task queue (every enqueued id stems from the first `k`
rows) and no later row's status is updated (rows with other ids
survive untouched). -/
theorem C6_cancellation_stops_batch (orc : NotificationEventLog → EventOutcome)
    (cancelled : Nat → Bool) (batch : List NotificationEventLog)
    (st : WorkerState) (k : Nat)
    (hbefore : ∀ j < k, cancelled j = false) (hk : cancelled k = true) :
    NotificationWorker.processBatch orc cancelled batch st
      = NotificationWorker.processBatch orc noCancel (batch.take k) st ∧
    (∀ tid ∈ (NotificationWorker.processBatch orc cancelled batch st).enqueued,
      tid ∈ st.enqueued ∨ ∃ a ∈ batch.take k, a.ID = tid) ∧
    (∀ r ∈ st.eventLogs, (∀ a ∈ batch.take k, r.ID ≠ a.ID) →
      r ∈ (NotificationWorker.processBatch orc cancelled batch st).eventLogs) := by
  have heq := processBatch_cancelled_eq_take orc cancelled batch st k hbefore hk
  refine ⟨heq, ?_, ?_⟩
  · intro tid htid
    rw [heq] at htid
    exact processBatch_enqueued_sub orc _ st tid htid
  · intro r hr hne
    rw [heq]
    exact processBatch_eventLogs_frame orc _ st r hr hne

/-- Witness for C6: with a context cancelled from step 1 onward, a
two-row batch processes only its first row. -/
theorem C6_cancellation_stops_batch_witness :
    NotificationWorker.processBatch (fun _ => EventOutcome.success) cancelAfterOne
        [evA, evB] workerSt0
      = NotificationWorker.processBatch (fun _ => EventOutcome.success) noCancel
          ([evA, evB].take 1) workerSt0 ∧
    (∀ tid ∈ (NotificationWorker.processBatch (fun _ => EventOutcome.success)
        cancelAfterOne [evA, evB] workerSt0).enqueued,
      tid ∈ workerSt0.enqueued ∨ ∃ a ∈ [evA, evB].take 1, a.ID = tid) ∧
    (∀ r ∈ workerSt0.eventLogs, (∀ a ∈ [evA, evB].take 1, r.ID ≠ a.ID) →
      r ∈ (NotificationWorker.processBatch (fun _ => EventOutcome.success)
            cancelAfterOne [evA, evB] workerSt0).eventLogs) :=
  C6_cancellation_stops_batch (fun _ => EventOutcome.success) cancelAfterOne
    [evA, evB] workerSt0 1 (by decide) (by decide)

end WalletProto
